import Mathlib

/-!
# Verification of the feature-hub Feature Service Registry and Render Orchestrator

Shallow embedding of `packages/core/src/feature-service-registry.ts` and of the
render-until-completed orchestrator described in the design document (the
orchestrator implementation is exercised only through its test suite in the
corpus, so it is modelled from the specification text).

Conventions of the embedding:

* TypeScript objects with string keys are modelled as association lists
  `List (String × V)`; key lookup is first-occurrence lookup, object spread is
  `spreadMerge`, and `Map.set` is `mapSet` (overwrite in place, append if new).
* Thrown exceptions are modelled with `Except`; `console` output and other
  observable side effects are collected in an explicit `List Event` channel.
* Machine integers do not occur: version components are `Nat`s parsed from
  decimal strings.
-/

namespace FeatureHub

/-- A coerced semantic version (`major.minor.patch`). -/
structure SemVer where
  major : Nat
  minor : Nat
  patch : Nat
deriving DecidableEq, Repr

/-- Split a character list at every occurrence of the given separator
character (structural analogue of `String.splitOn` with a one-character
separator, written so that kernel reduction works). -/
def splitOnChar (c : Char) : List Char → List (List Char)
  | [] => [[]]
  | x :: xs =>
    if x = c then [] :: splitOnChar c xs
    else
      match splitOnChar c xs with
      | [] => [[x]]
      | g :: gs => (x :: g) :: gs

/-- Split a character list at every occurrence of the two-character separator
`||` (the range-alternative separator of the semver range grammar). -/
def splitOnPipes : List Char → List (List Char)
  | [] => [[]]
  | '|' :: '|' :: rest => [] :: splitOnPipes rest
  | x :: rest =>
    match splitOnPipes rest with
    | [] => [[x]]
    | g :: gs => (x :: g) :: gs

/-- The numeric value of a decimal digit character, `none` otherwise. -/
def digitVal? (ch : Char) : Option Nat :=
  if '0' ≤ ch && ch ≤ '9' then some (ch.toNat - '0'.toNat) else none

/-- Accumulator loop for `parseNat?`. -/
def parseNatAux : List Char → Nat → Option Nat
  | [], acc => some acc
  | ch :: rest, acc =>
    match digitVal? ch with
    | some d => parseNatAux rest (acc * 10 + d)
    | none => none

/-- Parse a non-empty all-digit character list as a decimal `Nat`. -/
def parseNat? : List Char → Option Nat
  | [] => none
  | l => parseNatAux l 0

/-- Remove leading and trailing spaces (structural analogue of
`String.trim` as far as the range grammar needs it). -/
def trimChars (l : List Char) : List Char :=
  ((l.dropWhile (· = ' ')).reverse.dropWhile (· = ' ')).reverse

/-- Model of the npm `semver` package's tolerant `coerce`: an optional leading
`v` is stripped, the string is split on `.`, and up to three decimal numeric
components are accepted, missing components defaulting to `0`.  Any other shape
coerces to `none` (the registry only relies on coercibility being decidable and
on partial versions such as `"1"` coercing to `1.0.0`). -/
def coerce (s : String) : Option SemVer :=
  let cs := match s.data with
    | 'v' :: rest => rest
    | cs => cs
  match (splitOnChar '.' cs).map parseNat? with
  | [some a] => some ⟨a, 0, 0⟩
  | [some a, some b] => some ⟨a, b, 0⟩
  | [some a, some b, some c] => some ⟨a, b, c⟩
  | _ => none

/-- Lexicographic order on semantic versions. -/
def semverLe (a b : SemVer) : Bool :=
  if a.major ≠ b.major then a.major < b.major
  else if a.minor ≠ b.minor then a.minor < b.minor
  else a.patch ≤ b.patch

/-- Caret-range membership: `v` is in the caret range of `base` when
`base ≤ v` and `v` does not reach the next breaking version (next major for
`major > 0`, next minor for `0.x`, exact for `0.0.x`). -/
def caretSatisfied (base v : SemVer) : Bool :=
  semverLe base v &&
    (if base.major > 0 then v.major == base.major
     else if base.minor > 0 then v.major == 0 && v.minor == base.minor
     else v == base)

/-- One comparator of a semver range: either a caret range `^x[.y[.z]]` or a
plain version compared for coerced equality. -/
def comparatorSatisfied (v : SemVer) (comparator : List Char) : Bool :=
  match comparator with
  | '^' :: base =>
    match coerce (String.mk base) with
    | some baseVersion => caretSatisfied baseVersion v
    | none => false
  | cs =>
    match coerce (String.mk cs) with
    | some w => v == w
    | none => false

/-- Model of the npm `semver` package's `satisfies`, restricted to the range
grammar the corpus uses: `||`-separated alternatives, each either a caret
range `^x[.y[.z]]` or a plain version compared for coerced equality. -/
def satisfies (v : SemVer) (range : String) : Bool :=
  ((splitOnPipes range.data).map trimChars).any (comparatorSatisfied v)

/-- The predicate of the `supportedVersions.find` call in
`FeatureServiceRegistry.bindFeatureService` (lines 352–358): coerce the
exposed version key and test it against the required range.  A key failing
coercion never matches (registration already guarantees coercibility for
stored services). -/
def supportedVersionMatches (requiredVersion supportedVersion : String) : Bool :=
  match coerce supportedVersion with
  | some actualVersion => satisfies actualVersion requiredVersion
  | none => false

/-- The Version Matcher: iterate the exposed version keys in declaration order
and return the first whose coerced version satisfies the required range
(`supportedVersions.find(...)` in `bindFeatureService`). -/
def findSupportedVersion (supportedVersions : List String)
    (requiredVersion : String) : Option String :=
  supportedVersions.find? (supportedVersionMatches requiredVersion)

/-! ## Association-list model of TypeScript objects and `Map`s -/

/-- First-occurrence lookup in an association list (`obj[key]`, yielding
`undefined` as `none` when the key is absent). -/
def objGet {V : Type} (l : List (String × V)) (k : String) : Option V :=
  (l.find? fun p => p.1 = k).map Prod.snd

/-- Key-presence test (`obj.hasOwnProperty(key)` or `map.has(key)`). -/
def hasKey {V : Type} (l : List (String × V)) (k : String) : Bool :=
  (l.find? fun p => p.1 = k).isSome

/-- The key sequence of an object (`Object.keys`). -/
def objKeys {V : Type} (l : List (String × V)) : List String :=
  l.map Prod.fst

/-- `Map.set`: overwrite the value in place when the key is present, append a
new entry otherwise. -/
def mapSet {V : Type} (l : List (String × V)) (k : String) (v : V) :
    List (String × V) :=
  if hasKey l k then l.map fun p => if p.1 = k then (k, v) else p
  else l ++ [(k, v)]

/-- Object spread `{...a, ...b}` on key-unique association lists: the keys of
`a` come first (with `b`'s value winning on a collision), followed by the keys
of `b` that are absent from `a`. -/
def spreadMerge {V : Type} (a b : List (String × V)) : List (String × V) :=
  (a.map fun p =>
    match objGet b p.1 with
    | some v => (p.1, v)
    | none => p) ++
    b.filter fun p => !hasKey a p.1

/-- `Set.add` on the list model of a `Set` (only ever called after a
non-membership check, so plain append keeps set semantics). -/
def setAdd (l : List String) (x : String) : List String :=
  if l.contains x then l else l ++ [x]

/-! ## Data model of the Feature Service Registry -/

/-- A map of Feature Services with their ID as key and a semver-compatible
version range as value; a value may be `undefined` (`none`). -/
abbrev FeatureServiceConsumerDependencies : Type := List (String × Option String)

/-- The observable outcome of one recorded binding's optional `unbind`
callback: the side effects it performs, and whether it throws afterwards. -/
structure TeardownOutcome where
  effects : List String
  throws : Option String
deriving DecidableEq, Repr

/-- `FeatureServiceBinding`: the capability instance handed to the consumer
plus the optional teardown callback. -/
structure FeatureServiceBinding (α : Type) where
  featureService : α
  unbind? : Option TeardownOutcome

/-- `FeatureServiceBinder`: a function from a ConsumerUID to a binding. -/
abbrev FeatureServiceBinder (α : Type) : Type := String → FeatureServiceBinding α

/-- `SharedFeatureService`: an ordered mapping from exposed version string to
binder (insertion order of the object literal is semantically significant). -/
abbrev SharedFeatureService (α : Type) : Type :=
  List (String × FeatureServiceBinder α)

/-- `FeatureServiceConsumerDefinition`: id plus required and optional
dependency maps. -/
structure FeatureServiceConsumerDefinition where
  id : String
  dependencies : FeatureServiceConsumerDependencies := []
  optionalDependencies : FeatureServiceConsumerDependencies := []

/-- `FeatureServiceProviderDefinition`: a consumer definition together with the
`create` factory (taking the integrator-supplied config and the resolved
capability map). -/
structure FeatureServiceProviderDefinition (α β : Type) where
  id : String
  dependencies : FeatureServiceConsumerDependencies := []
  optionalDependencies : FeatureServiceConsumerDependencies := []
  create : Option β → List (String × α) → SharedFeatureService α

/-- The consumer-definition part of a provider definition (a provider is bound
as a consumer of its own dependencies during registration). -/
def FeatureServiceProviderDefinition.toConsumerDefinition {α β : Type}
    (d : FeatureServiceProviderDefinition α β) : FeatureServiceConsumerDefinition :=
  { id := d.id
    dependencies := d.dependencies
    optionalDependencies := d.optionalDependencies }

/-- Structured model of the errors the registry throws
(`feature-service-registry-messages`). -/
inductive RegistryError where
  | featureServicesAlreadyBound (consumerUid : String)
  | featureServicesAlreadyUnbound (consumerUid : String)
  | featureServiceVersionInvalid (providerId consumerId : String)
  | featureServiceDependencyVersionInvalid (providerId consumerUid : String)
  | featureServiceNotRegistered (providerId consumerUid : String)
  | featureServiceUnsupported (providerId consumerUid requiredVersion : String)
      (supportedVersions : List String)
  | dependencyCycle (nodes : List String)
deriving DecidableEq, Repr

/-- Observable events: every `console` notice plus the invocations of
user-supplied callbacks (`create`, version binders, teardown side effects). -/
inductive Event where
  | warnAlreadyRegistered (providerId consumerId : String)
  | infoRegistered (providerId consumerId : String)
  | infoBound (providerId consumerUid : String)
  | infoDependencyVersionInvalid (providerId consumerUid : String)
  | infoNotRegistered (providerId consumerUid : String)
  | infoUnsupported (providerId consumerUid requiredVersion : String)
      (supportedVersions : List String)
  | infoUnbound (providerId consumerUid : String)
  | errorCouldNotUnbound (providerId consumerUid : String)
  | createInvoked (providerId : String)
  | binderInvoked (providerId version consumerUid : String)
  | teardownEffect (effect : String)
deriving DecidableEq, Repr

/-- The mutable state of a `FeatureServiceRegistry` instance: the constructor
options (`configs`), the `sharedFeatureServices` map and the `consumerUids`
set. -/
structure FeatureServiceRegistry (α β : Type) where
  configs : Option (List (String × β))
  sharedFeatureServices : List (String × SharedFeatureService α)
  consumerUids : List String

/-- `Modelled from the spec:` the ConsumerUID derivation (`createUid` in
`internal/create-uid`, absent from the corpus) — deterministic combination of
the consumer id and the optional disambiguating specifier. -/
def createUid (consumerId : String) : Option String → String
  | some specifier => consumerId ++ ":" ++ specifier
  | none => consumerId

/-! ## `FeatureServiceRegistry.bindFeatureService` (private method) -/

/-- JavaScript falsiness of the `requiredVersion : string | undefined`
parameter (`undefined` and the empty string are falsy). -/
def isFalsyRange : Option String → Bool
  | none => true
  | some s => s == ""

/-- The result handed back to the consumer by `bindFeatureServices`
(the `unbind` closure is modelled separately by `unbind`, which consumes the
recorded `bindings`). -/
structure FeatureServicesBinding (α : Type) where
  consumerUid : String
  featureServices : List (String × α)
  bindings : List (String × FeatureServiceBinding α)

/-- Embedding of the private method `bindFeatureService` (source lines
310–381): resolve one requested capability for a consumer.  Returns
`.ok none` for an optional skip, `.ok (some binding)` on success, and
`.error _` where the source throws. -/
def bindFeatureService {α β : Type} (reg : FeatureServiceRegistry α β)
    (providerId consumerUid : String) (requiredVersion : Option String)
    (optional : Bool) :
    Except RegistryError (Option (FeatureServiceBinding α)) × List Event :=
  if isFalsyRange requiredVersion then
    if optional then
      (.ok none, [.infoDependencyVersionInvalid providerId consumerUid])
    else
      (.error (.featureServiceDependencyVersionInvalid providerId consumerUid), [])
  else
    let rv := requiredVersion.getD ""
    match objGet reg.sharedFeatureServices providerId with
    | none =>
      if optional then (.ok none, [.infoNotRegistered providerId consumerUid])
      else (.error (.featureServiceNotRegistered providerId consumerUid), [])
    | some sharedFeatureService =>
      let supportedVersions := objKeys sharedFeatureService
      match findSupportedVersion supportedVersions rv with
      | none =>
        if optional then
          (.ok none, [.infoUnsupported providerId consumerUid rv supportedVersions])
        else
          (.error (.featureServiceUnsupported providerId consumerUid rv
            supportedVersions), [])
      | some version =>
        match objGet sharedFeatureService version with
        | none =>
          if optional then
            (.ok none, [.infoUnsupported providerId consumerUid rv supportedVersions])
          else
            (.error (.featureServiceUnsupported providerId consumerUid rv
              supportedVersions), [])
        | some binder =>
          (.ok (some (binder consumerUid)),
           [.binderInvoked providerId version consumerUid])

/-! ## `FeatureServiceRegistry.bindFeatureServices` -/

/-- The dependency loop of `bindFeatureServices` (source lines 255–274):
iterate the merged dependency map in key order, short-circuiting on a thrown
error, skipping optional misses, and recording bindings and the capability
map in successful-bind order. -/
def bindDepsLoop {α β : Type} (reg : FeatureServiceRegistry α β)
    (consumerUid : String) (dependencies : FeatureServiceConsumerDependencies) :
    List (String × Option String) →
    Except RegistryError
      (List (String × FeatureServiceBinding α) × List (String × α)) × List Event
  | [] => (.ok ([], []), [])
  | (providerId, requiredVersion) :: rest =>
    match bindFeatureService reg providerId consumerUid requiredVersion
        (!hasKey dependencies providerId) with
    | (.error e, ev) => (.error e, ev)
    | (.ok none, ev) =>
      match bindDepsLoop reg consumerUid dependencies rest with
      | (r, ev') => (r, ev ++ ev')
    | (.ok (some binding), ev) =>
      match bindDepsLoop reg consumerUid dependencies rest with
      | (.error e, ev') =>
        (.error e, ev ++ [.infoBound providerId consumerUid] ++ ev')
      | (.ok (bs, fs), ev') =>
        (.ok ((providerId, binding) :: bs,
          (providerId, binding.featureService) :: fs),
         ev ++ [.infoBound providerId consumerUid] ++ ev')

/-- Embedding of the public method `bindFeatureServices` (source lines
235–308): duplicate-UID check, merged dependency resolution, and activation of
the ConsumerUID.  The registry state is returned unchanged on every thrown
error (the UID is only added after the loop completes). -/
def bindFeatureServices {α β : Type} (reg : FeatureServiceRegistry α β)
    (consumerDefinition : FeatureServiceConsumerDefinition)
    (consumerIdSpecifier : Option String) :
    Except RegistryError (FeatureServicesBinding α) ×
      FeatureServiceRegistry α β × List Event :=
  let consumerUid := createUid consumerDefinition.id consumerIdSpecifier
  if reg.consumerUids.contains consumerUid then
    (.error (.featureServicesAlreadyBound consumerUid), reg, [])
  else
    let allDependencies :=
      spreadMerge consumerDefinition.optionalDependencies
        consumerDefinition.dependencies
    match bindDepsLoop reg consumerUid consumerDefinition.dependencies
        allDependencies with
    | (.error e, ev) => (.error e, reg, ev)
    | (.ok (bindings, featureServices), ev) =>
      (.ok ⟨consumerUid, featureServices, bindings⟩,
       { reg with consumerUids := setAdd reg.consumerUids consumerUid }, ev)

/-- One iteration of the teardown loop inside the `unbind` closure (source
lines 289–304): invoke the optional `unbind` callback inside `try`/`catch` —
its side effects always happen, a success logs an info notice, a thrown error
is logged and swallowed. -/
def runTeardown {α : Type} (consumerUid : String)
    (entry : String × FeatureServiceBinding α) : List Event :=
  match entry.2.unbind? with
  | none => [.infoUnbound entry.1 consumerUid]
  | some teardown =>
    teardown.effects.map Event.teardownEffect ++
      match teardown.throws with
      | none => [.infoUnbound entry.1 consumerUid]
      | some _ => [.errorCouldNotUnbound entry.1 consumerUid]

/-- Embedding of the `unbind` closure returned by `bindFeatureServices`
(source lines 280–305): guarded by the captured `unbound` flag, it removes the
ConsumerUID from the active set and runs every recorded binding's teardown in
binding order with isolated error handling. -/
def unbind {α β : Type} (consumerUid : String)
    (bindings : List (String × FeatureServiceBinding α)) (unbound : Bool)
    (reg : FeatureServiceRegistry α β) :
    Except RegistryError Unit × Bool × FeatureServiceRegistry α β × List Event :=
  if unbound then
    (.error (.featureServicesAlreadyUnbound consumerUid), unbound, reg, [])
  else
    (.ok (), true,
     { reg with consumerUids := reg.consumerUids.filter (· ≠ consumerUid) },
     (bindings.map (runTeardown consumerUid)).flatten)

/-! ## `FeatureServiceRegistry.registerFeatureServices` -/

/-- `createDependencyGraph` (source lines 114–127): map every definition id to
its merged required and optional dependency map (later definitions with the
same id overwrite, as `Map.set` does). -/
def createDependencyGraph {α β : Type}
    (definitions : List (FeatureServiceProviderDefinition α β)) :
    List (String × FeatureServiceConsumerDependencies) :=
  definitions.foldl
    (fun g d => mapSet g d.id (spreadMerge d.dependencies d.optionalDependencies)) []

/-- `createProviderDefinitionById` (source lines 129–139). -/
def createProviderDefinitionById {α β : Type}
    (definitions : List (FeatureServiceProviderDefinition α β)) :
    List (String × FeatureServiceProviderDefinition α β) :=
  definitions.foldl (fun m d => mapSet m d.id d) []

/-- One Kahn step: the first node in insertion order none of whose dependency
edges point back into the unprocessed set (edges to ids absent from the batch
are ignored). -/
def toposortReady (remaining : List (String × List String)) : Option String :=
  (remaining.find? fun node => node.2.all fun dep => !hasKey remaining dep).map
    Prod.fst

/-- Fuelled Kahn iteration; fuel bounds the number of emitted nodes, and a
round with unprocessed nodes but no ready node fails with a cycle error naming
the participating node set. -/
def toposortAux : Nat → List (String × List String) →
    Except RegistryError (List String)
  | _, [] => .ok []
  | 0, remaining => .error (.dependencyCycle (objKeys remaining))
  | fuel + 1, remaining =>
    match toposortReady remaining with
    | none => .error (.dependencyCycle (objKeys remaining))
    | some n =>
      match toposortAux fuel (remaining.filter fun p => p.1 ≠ n) with
      | .error e => .error e
      | .ok order => .ok (n :: order)

/-- `Modelled from the spec:` the Dependency Graph Resolver
(`toposortDependencies` in `internal/toposort-dependencies`, absent from the
corpus) — a deterministic linear order over every input node in which every
node appears after all nodes it depends on that are also present in the input;
edges to absent identifiers are ignored and an unresolvable graph fails with a
dependency-cycle error. -/
def toposortDependencies
    (g : List (String × FeatureServiceConsumerDependencies)) :
    Except RegistryError (List String) :=
  toposortAux g.length (g.map fun p => (p.1, objKeys p.2))

/-- One iteration of the registration loop of `registerFeatureServices`
(source lines 187–220): an already-registered id is a warning no-op, an
unknown id is skipped, and otherwise the provider is bound as a consumer, its
`create` factory invoked, every exposed version key validated for
coercibility, and the result committed. -/
def registerStep {α β : Type} (reg : FeatureServiceRegistry α β)
    (providerDefinitionsById : List (String × FeatureServiceProviderDefinition α β))
    (consumerId providerId : String) :
    Except RegistryError Unit × FeatureServiceRegistry α β × List Event :=
  if hasKey reg.sharedFeatureServices providerId then
    if hasKey providerDefinitionsById providerId then
      (.ok (), reg, [.warnAlreadyRegistered providerId consumerId])
    else (.ok (), reg, [])
  else
    match objGet providerDefinitionsById providerId with
    | none => (.ok (), reg, [])
    | some pdef =>
      let config := reg.configs.bind fun cfgs => objGet cfgs providerId
      match bindFeatureServices reg pdef.toConsumerDefinition none with
      | (.error e, reg', ev) => (.error e, reg', ev)
      | (.ok binding, reg', ev) =>
        let sharedFeatureService := pdef.create config binding.featureServices
        let ev := ev ++ [.createInvoked providerId]
        if (objKeys sharedFeatureService).all (fun version => (coerce version).isSome)
        then
          let newShared :=
            mapSet reg'.sharedFeatureServices providerId sharedFeatureService
          (.ok (), { reg' with sharedFeatureServices := newShared },
           ev ++ [.infoRegistered providerId consumerId])
        else
          (.error (.featureServiceVersionInvalid providerId consumerId), reg', ev)

/-- The registration loop over the resolved order, short-circuiting on a
thrown error and keeping all state mutations made so far. -/
def registerLoop {α β : Type}
    (providerDefinitionsById : List (String × FeatureServiceProviderDefinition α β))
    (consumerId : String) (reg : FeatureServiceRegistry α β) :
    List String →
    Except RegistryError Unit × FeatureServiceRegistry α β × List Event
  | [] => (.ok (), reg, [])
  | providerId :: rest =>
    match registerStep reg providerDefinitionsById consumerId providerId with
    | (.error e, reg', ev) => (.error e, reg', ev)
    | (.ok (), reg', ev) =>
      match registerLoop providerDefinitionsById consumerId reg' rest with
      | (r, reg'', ev') => (r, reg'', ev ++ ev')

/-- Embedding of the public method `registerFeatureServices` (source lines
175–221): resolve the registration order over the merged dependency edges and
run the registration loop. -/
def registerFeatureServices {α β : Type} (reg : FeatureServiceRegistry α β)
    (providerDefinitions : List (FeatureServiceProviderDefinition α β))
    (consumerId : String) :
    Except RegistryError Unit × FeatureServiceRegistry α β × List Event :=
  match toposortDependencies (createDependencyGraph providerDefinitions) with
  | .error e => (.error e, reg, [])
  | .ok order =>
    registerLoop (createProviderDefinitionById providerDefinitions) consumerId
      reg order

/-! ## Render Orchestrator (Async SSR Manager)

The orchestrator implementation is not part of the corpus (only its test
suite is), so the fixed-point render loop is modelled from the specification
text of the design document. -/

namespace AsyncSsrManager

/-- `Modelled from the spec:` the settling behaviour of one promise handed to
`rerenderAfter` — it is either already resolved, eventually rejected with an
error, or never settles.  Real-time settle durations are abstracted away:
a promise settles either immediately or never. -/
inductive SettleState where
  | resolved
  | rejected (error : String)
  | pending
deriving DecidableEq, Repr

/-- `Modelled from the spec:` the observable outcome of one render pass — the
output of `renderFn` together with the union of all promises contributed via
`rerenderAfter` during that synchronous invocation; a throwing `renderFn` is
an `Except.error`. -/
structure RenderPass where
  output : String
  rerenders : List SettleState
deriving DecidableEq, Repr

/-- A render function's behaviour per pass index (0-based). -/
abbrev RenderFn : Type := Nat → Except String RenderPass

/-- `Modelled from the spec:` the possible outcomes of
`renderUntilCompleted`, each recording how many times `renderFn` was
invoked. -/
inductive RenderResult where
  | completed (html : String) (invocations : Nat)
  | failed (error : String) (invocations : Nat)
  | timedOut (timeoutMs invocations : Nat)
  | unbounded (invocations : Nat)
  | fuelExhausted (invocations : Nat)
deriving DecidableEq, Repr

/-- The first rejection among a pass's pending promises, if any. -/
def firstRejection (promises : List SettleState) : Option String :=
  promises.findSome? fun p =>
    match p with
    | .rejected e => some e
    | _ => none

/-- Whether some contributed promise never settles. -/
def hasPending (promises : List SettleState) : Bool :=
  promises.any fun p =>
    match p with
    | .pending => true
    | _ => false

/-- `Modelled from the spec:` the fixed-point render loop of §4.5 (the Async
SSR Manager implementation is absent from the corpus).  Each pass invokes
`renderFn`; an empty pending set completes with the pass's output, a rejected
promise fails the whole operation, a never-settling promise makes the
operation time out when a timeout is configured (and run unbounded
otherwise), and an all-resolved non-empty pending set starts the next pass.
`fuel` bounds the number of passes so the function is total; every claim
supplies sufficient fuel. -/
def renderLoop (timeout : Option Nat) (renderFn : RenderFn) :
    Nat → Nat → RenderResult
  | 0, invocations => .fuelExhausted invocations
  | fuel + 1, invocations =>
    match renderFn invocations with
    | .error e => .failed e (invocations + 1)
    | .ok pass =>
      if pass.rerenders.isEmpty then .completed pass.output (invocations + 1)
      else
        match firstRejection pass.rerenders with
        | some e => .failed e (invocations + 1)
        | none =>
          if hasPending pass.rerenders then
            match timeout with
            | some t => .timedOut t (invocations + 1)
            | none => .unbounded (invocations + 1)
          else renderLoop timeout renderFn fuel (invocations + 1)

/-- `Modelled from the spec:` `renderUntilCompleted` — run the fixed-point
render loop from the first pass. -/
def renderUntilCompleted (timeout : Option Nat) (renderFn : RenderFn)
    (fuel : Nat) : RenderResult :=
  renderLoop timeout renderFn fuel 0

end AsyncSsrManager

example : coerce "1" = some ⟨1, 0, 0⟩ := by decide
example : coerce "1.0.0" = some ⟨1, 0, 0⟩ := by decide
example : coerce "nope" = none := by decide
example : satisfies ⟨1, 0, 0⟩ "^1.0 || ^2.0" = true := by decide
example : satisfies ⟨2, 0, 0⟩ "^1.0 || ^2.0" = true := by decide
example : findSupportedVersion ["1.0.0", "2.0.0"] "^1.0 || ^2.0" = some "1.0.0" := by
  decide

/-! ## Generic helper lemmas about the object model -/

/-- `List.find?` returns the element at the first satisfying index. -/
theorem find?_of_first {γ : Type} (p : γ → Bool) :
    ∀ (l : List γ) (i : Nat) (hi : i < l.length),
      p (l.get ⟨i, hi⟩) = true →
      (∀ k (hk : k < i), p (l.get ⟨k, Nat.lt_trans hk hi⟩) = false) →
      l.find? p = some (l.get ⟨i, hi⟩)
  | [], i, hi => by simp at hi
  | x :: xs, 0, _ => fun hp _ => by
    simpa using List.find?_cons_of_pos xs hp
  | x :: xs, j + 1, hj => fun hp hfirst => by
    have hx : p x = false := hfirst 0 (Nat.succ_pos j)
    have hrec := find?_of_first p xs j (Nat.lt_of_succ_lt_succ hj) hp
      (fun k hk => hfirst (k + 1) (Nat.succ_lt_succ hk))
    have hfind : List.find? p (x :: xs) = List.find? p xs := by
      simp [List.find?, hx]
    rw [hfind]
    exact hrec

/-- Lookup in a concatenation is left-biased. -/
theorem objGet_append_left {V : Type} (l₁ l₂ : List (String × V)) (k : String)
    (v : V) (h : objGet l₁ k = some v) : objGet (l₁ ++ l₂) k = some v := by
  unfold objGet at h ⊢
  rw [List.find?_append]
  cases hf : l₁.find? fun p => p.1 = k with
  | none => rw [hf] at h; simp at h
  | some e => rw [hf] at h; simpa using h

/-- Lookup in a concatenation falls through to the right part when the key is
absent on the left. -/
theorem objGet_append_of_none {V : Type} (l₁ l₂ : List (String × V))
    (k : String) (h : objGet l₁ k = none) :
    objGet (l₁ ++ l₂) k = objGet l₂ k := by
  unfold objGet at h ⊢
  rw [List.find?_append]
  cases hf : l₁.find? fun p => p.1 = k with
  | none => simp
  | some e => rw [hf] at h; simp at h

/-- A present key makes `hasKey` true. -/
theorem hasKey_of_objGet_some {V : Type} {l : List (String × V)} {k : String}
    {v : V} (h : objGet l k = some v) : hasKey l k = true := by
  unfold objGet at h
  unfold hasKey
  cases hf : l.find? fun p => p.1 = k with
  | none => rw [hf] at h; simp at h
  | some e => simp

/-- `hasKey` and `objGet` agree on key absence. -/
theorem objGet_eq_none_of_not_hasKey {V : Type} {l : List (String × V)}
    {k : String} (h : hasKey l k = false) : objGet l k = none := by
  unfold hasKey at h
  unfold objGet
  cases hf : l.find? fun p => p.1 = k with
  | none => simp
  | some e => rw [hf] at h; simp at h

/-- `objGet` after `mapSet`: the set key yields the new value, every other key
is unchanged. -/
theorem objGet_mapSet {V : Type} (l : List (String × V)) (j k : String)
    (v : V) :
    objGet (mapSet l j v) k = if k = j then some v else objGet l k := by
  unfold mapSet
  by_cases hj : hasKey l j = true
  · rw [if_pos hj]
    unfold objGet
    rw [List.find?_map]
    have hpred : ((fun p : String × V => decide (p.1 = k)) ∘
        fun p : String × V => if p.1 = j then (j, v) else p) =
        (if k = j then (fun p : String × V => decide (p.1 = j))
         else fun p : String × V => decide (p.1 = k)) := by
      funext p
      by_cases hp : p.1 = j
      · by_cases hkj : k = j
        · simp [Function.comp_def, hp, hkj]
        · simp only [Function.comp_def, hp, if_pos rfl, if_neg hkj]
          simp [hp, fun h : j = k => hkj h.symm]
      · by_cases hkj : k = j
        · subst hkj; simp [Function.comp_def, hp]
        · simp [Function.comp_def, hp, hkj]
    rw [hpred]
    by_cases hkj : k = j
    · rw [if_pos hkj, if_pos hkj]
      unfold hasKey at hj
      cases hf : l.find? fun p : String × V => p.1 = j with
      | none => rw [hf] at hj; simp at hj
      | some e =>
        have he := List.find?_some hf
        simp only [decide_eq_true_eq] at he
        simp [hf, he]
    · rw [if_neg hkj, if_neg hkj]
      cases hf : l.find? fun p : String × V => p.1 = k with
      | none => simp [hf]
      | some e =>
        have he := List.find?_some hf
        simp only [decide_eq_true_eq] at he
        have hej : ¬(e.1 = j) := fun h => hkj (by rw [← he, h])
        simp [hf, hej]
  · rw [if_neg hj]
    by_cases hkj : k = j
    · subst hkj
      rw [if_pos rfl]
      rw [objGet_append_of_none _ _ _ (objGet_eq_none_of_not_hasKey
        (by simpa using hj))]
      unfold objGet
      simp
    · rw [if_neg hkj]
      cases hv : objGet l k with
      | some w => exact objGet_append_left _ _ _ _ hv
      | none =>
        rw [objGet_append_of_none _ _ _ hv]
        unfold objGet
        have hjk : ¬j = k := fun h => hkj h.symm
        simp [hjk]

/-! ## Claim C1 -/

/-- C1: for every registered provider exposing an ordered set of version keys
and every consumer-requested semver range, `bindFeatureService` selects the
first exposed version (in the provider's declaration order) whose coerced
semantic version satisfies the range — never a later numerically-higher
match — and invokes exactly that version's binder. -/
theorem C1_first_match_version_selection {α β : Type}
    (reg : FeatureServiceRegistry α β) (providerId consumerUid range : String)
    (sfs : SharedFeatureService α) (optional : Bool)
    (hrange : range ≠ "")
    (hreg : objGet reg.sharedFeatureServices providerId = some sfs)
    (i : Nat) (hi : i < sfs.length)
    (hmatch : supportedVersionMatches range (sfs.get ⟨i, hi⟩).1 = true)
    (hfirst : ∀ k (hk : k < i),
      supportedVersionMatches range (sfs.get ⟨k, Nat.lt_trans hk hi⟩).1 = false) :
    findSupportedVersion (objKeys sfs) range = some (sfs.get ⟨i, hi⟩).1 ∧
    bindFeatureService reg providerId consumerUid (some range) optional =
      (.ok (some ((sfs.get ⟨i, hi⟩).2 consumerUid)),
       [.binderInvoked providerId (sfs.get ⟨i, hi⟩).1 consumerUid]) := by
  have hlen : i < (objKeys sfs).length := by simpa [objKeys] using hi
  have h1 : supportedVersionMatches range ((objKeys sfs).get ⟨i, hlen⟩) = true := by
    simpa [objKeys] using hmatch
  have h2 : ∀ k (hk : k < i),
      supportedVersionMatches range
        ((objKeys sfs).get ⟨k, Nat.lt_trans hk hlen⟩) = false := by
    intro k hk
    simpa [objKeys] using hfirst k hk
  have hfind := find?_of_first (supportedVersionMatches range) (objKeys sfs)
    i hlen h1 h2
  have hfind' : findSupportedVersion (objKeys sfs) range =
      some (sfs.get ⟨i, hi⟩).1 := by
    unfold findSupportedVersion
    rw [hfind]
    simp [objKeys]
  have hkeyfirst : ∀ k (hk : k < i),
      (decide ((sfs.get ⟨k, Nat.lt_trans hk hi⟩).1 = (sfs.get ⟨i, hi⟩).1)) =
        false := by
    intro k hk
    by_contra hne
    have heq : (sfs.get ⟨k, Nat.lt_trans hk hi⟩).1 = (sfs.get ⟨i, hi⟩).1 := by
      simpa using hne
    have := hfirst k hk
    rw [heq, hmatch] at this
    exact Bool.true_eq_false.mp this
  have hvkey := find?_of_first
    (fun p : String × FeatureServiceBinder α => decide (p.1 = (sfs.get ⟨i, hi⟩).1))
    sfs i hi (by simp) hkeyfirst
  have hobj : objGet sfs (sfs.get ⟨i, hi⟩).1 = some (sfs.get ⟨i, hi⟩).2 := by
    unfold objGet
    rw [hvkey]
    rfl
  have hfalsy : isFalsyRange (some range) = false := by
    simp [isFalsyRange, hrange]
  refine ⟨hfind', ?_⟩
  unfold bindFeatureService
  rw [hfalsy]
  simp only [Bool.false_eq_true, if_false, hreg, Option.getD_some, hfind', hobj]

def wBinder1 : FeatureServiceBinder Nat := fun _ => ⟨1, none⟩

def wBinder2 : FeatureServiceBinder Nat := fun _ => ⟨2, none⟩

def wSfsA : SharedFeatureService Nat := [("1.0.0", wBinder1), ("2.0.0", wBinder2)]

def wRegA : FeatureServiceRegistry Nat Nat := ⟨none, [("a", wSfsA)], []⟩

/-- Witness for C1: with candidates `["1.0.0", "2.0.0"]` (in that order) and
range `"^1.0 || ^2.0"`, version `"1.0.0"` is selected and its binder invoked,
never `"2.0.0"`. -/
theorem C1_witness :
    findSupportedVersion ["1.0.0", "2.0.0"] "^1.0 || ^2.0" = some "1.0.0" ∧
    bindFeatureService wRegA "a" "consumer" (some "^1.0 || ^2.0") false =
      (.ok (some ⟨1, none⟩), [.binderInvoked "a" "1.0.0" "consumer"]) := by
  have h := C1_first_match_version_selection wRegA "a" "consumer" "^1.0 || ^2.0"
    wSfsA false (by decide) rfl 0 (by decide) (by decide)
    (fun k hk => absurd hk (Nat.not_lt_zero k))
  exact h

/-! ## Claims C7, C8, C9 -/

/-- `find?` ignores a filter whose predicate is implied by the search
predicate. -/
theorem find?_filter_of_imp {γ : Type} (p q : γ → Bool)
    (h : ∀ x, p x = true → q x = true) :
    ∀ l : List γ, (l.filter q).find? p = l.find? p
  | [] => rfl
  | x :: xs => by
    by_cases hq : q x = true
    · rw [List.filter_cons_of_pos hq]
      by_cases hp : p x = true
      · simp [List.find?, hp]
      · have hp' : p x = false := by simpa using hp
        simp only [List.find?, hp']
        exact find?_filter_of_imp p q h xs
    · have hq' : q x = false := by simpa using hq
      rw [List.filter_cons_of_neg (by simp [hq'])]
      have hp' : p x = false := by
        cases hpx : p x with
        | true => exact absurd (h x hpx) hq
        | false => rfl
      simp only [List.find?, hp']
      exact find?_filter_of_imp p q h xs

/-- The definitional unfolding of `objGet`, usable for targeted rewriting. -/
theorem objGet_eq {V : Type} (l : List (String × V)) (k : String) :
    objGet l k = (l.find? fun p => p.1 = k).map Prod.snd := rfl

/-- `find?` by key commutes with mapping a key-preserving function. -/
theorem find?_key_map {V : Type} (g : String × V → String × V)
    (hg : ∀ p, (g p).1 = p.1) (l : List (String × V)) (k : String) :
    (l.map g).find? (fun p => p.1 = k) =
      (l.find? fun p => p.1 = k).map g := by
  rw [List.find?_map]
  have hpred : ((fun p : String × V => decide (p.1 = k)) ∘ g) =
      fun p : String × V => decide (p.1 = k) := by
    funext p
    simp [Function.comp_def, hg p]
  rw [hpred]

/-- The per-entry rewrite of object spread preserves keys. -/
theorem spreadEntry_key {V : Type} (b : List (String × V)) (p : String × V) :
    (match objGet b p.1 with
      | some v => (p.1, v)
      | none => p).1 = p.1 := by
  cases objGet b p.1 <;> rfl

/-- On a key collision, object spread `{...a, ...b}` yields `b`'s value (the
later spread wins). -/
theorem objGet_spreadMerge_right {V : Type} (a b : List (String × V))
    (k : String) (hb : hasKey b k = true) :
    objGet (spreadMerge a b) k = objGet b k := by
  have hmapfind := find?_key_map _ (spreadEntry_key b) a k
  unfold spreadMerge
  by_cases ha : a.find? (fun p : String × V => p.1 = k) = none
  · have hA : objGet (a.map fun p : String × V =>
        match objGet b p.1 with
        | some v => (p.1, v)
        | none => p) k = none := by
      rw [objGet_eq, hmapfind, ha]
      rfl
    rw [objGet_append_of_none _ _ _ hA]
    have himp : ∀ x : String × V,
        (decide (x.1 = k)) = true → (!hasKey a x.1) = true := by
      intro x hx
      simp only [decide_eq_true_eq] at hx
      have hnone : hasKey a x.1 = false := by
        unfold hasKey
        rw [hx, ha]
        rfl
      simp [hnone]
    rw [objGet_eq (b.filter _) k, objGet_eq b k,
      find?_filter_of_imp _ _ himp b]
  · cases hf : a.find? (fun p : String × V => p.1 = k) with
    | none => exact absurd hf ha
    | some e =>
      have he := List.find?_some hf
      simp only [decide_eq_true_eq] at he
      unfold hasKey at hb
      cases hg : b.find? (fun p : String × V => p.1 = k) with
      | none => rw [hg] at hb; simp at hb
      | some w =>
        have hbk : objGet b k = some w.2 := by
          rw [objGet_eq, hg]
          rfl
        have hA : objGet (a.map fun p : String × V =>
            match objGet b p.1 with
            | some v => (p.1, v)
            | none => p) k = some w.2 := by
          rw [objGet_eq, hmapfind, hf]
          have hbe : objGet b e.1 = some w.2 := by rw [he]; exact hbk
          simp [hbe]
        rw [objGet_append_left _ _ _ _ hA, hbk]

/-- C7: a capability id present in both the required and the optional
dependency map is resolved as required — the merged map carries the required
range, the `optional` flag passed to `bindFeatureService` is `false`, and with
`optional = false` the resolution never skips (it either succeeds or
throws). -/
theorem C7_required_wins_on_collision {α β : Type}
    (reg : FeatureServiceRegistry α β)
    (cdef : FeatureServiceConsumerDefinition) (providerId : String)
    (hreq : hasKey cdef.dependencies providerId = true)
    (hopt : hasKey cdef.optionalDependencies providerId = true) :
    objGet (spreadMerge cdef.optionalDependencies cdef.dependencies)
        providerId = objGet cdef.dependencies providerId ∧
    (!hasKey cdef.dependencies providerId) = false ∧
    ∀ consumerUid requiredVersion,
      (bindFeatureService (α := α) (β := β) reg providerId consumerUid
        requiredVersion false).1 ≠ Except.ok none := by
  refine ⟨objGet_spreadMerge_right _ _ _ hreq, by simp [hreq], ?_⟩
  intro consumerUid requiredVersion
  unfold bindFeatureService
  split
  · simp
  · split
    · simp
    · split
      · simp_all
      · dsimp only
        split
        · simp
        · split <;> simp

/-- Concatenated per-element output decomposes around any index. -/
theorem flatten_map_decompose {γ δ : Type} (f : γ → List δ) :
    ∀ (l : List γ) (i : Nat) (hi : i < l.length),
      (l.map f).flatten =
        ((l.take i).map f).flatten ++
          (f (l.get ⟨i, hi⟩) ++ ((l.drop (i + 1)).map f).flatten)
  | x :: xs, 0, _ => by simp
  | x :: xs, j + 1, hj => by
    have ih := flatten_map_decompose f xs j (Nat.lt_of_succ_lt_succ hj)
    simp only [List.map_cons, List.flatten_cons, List.take_succ_cons,
      List.drop_succ_cons, List.get_cons_succ]
    rw [ih]
    simp

/-- C8: the `unbind` closure's first call never propagates an error to the
caller, and every recorded binding's teardown runs in binding order — the
event trace decomposes around each index `i` into the teardowns before `i`,
the teardown of binding `i`, and the teardowns after `i`, regardless of which
teardowns throw. -/
theorem C8_unbind_isolation {α β : Type} (consumerUid : String)
    (bindings : List (String × FeatureServiceBinding α))
    (reg : FeatureServiceRegistry α β) :
    (unbind consumerUid bindings false reg).1 = Except.ok () ∧
    ∀ i (hi : i < bindings.length),
      (unbind consumerUid bindings false reg).2.2.2 =
        ((bindings.take i).map (runTeardown consumerUid)).flatten ++
          (runTeardown consumerUid (bindings.get ⟨i, hi⟩) ++
            ((bindings.drop (i + 1)).map (runTeardown consumerUid)).flatten) := by
  constructor
  · rfl
  · intro i hi
    have hev : (unbind consumerUid bindings false reg).2.2.2 =
        (bindings.map (runTeardown consumerUid)).flatten := rfl
    rw [hev]
    exact flatten_map_decompose (runTeardown consumerUid) bindings i hi

/-- C9: for each of the three resolution failures — no declared version range,
no registered provider, no exposed version satisfying the range — a required
dependency makes `bindFeatureService` throw (the no-match case listing all
exposed versions), while an optional dependency is skipped with an
informational notice and the dependency loop continues with the capability
simply absent. -/
theorem C9_required_fatal_optional_skip {α β : Type}
    (reg : FeatureServiceRegistry α β) (providerId consumerUid : String) :
    (∀ requiredVersion, isFalsyRange requiredVersion = true →
      bindFeatureService (α := α) (β := β) reg providerId consumerUid
          requiredVersion false =
        (.error (.featureServiceDependencyVersionInvalid providerId
          consumerUid), []) ∧
      bindFeatureService reg providerId consumerUid requiredVersion true =
        (.ok none, [.infoDependencyVersionInvalid providerId consumerUid])) ∧
    (∀ range, range ≠ "" →
      objGet reg.sharedFeatureServices providerId = none →
      bindFeatureService reg providerId consumerUid (some range) false =
        (.error (.featureServiceNotRegistered providerId consumerUid), []) ∧
      bindFeatureService reg providerId consumerUid (some range) true =
        (.ok none, [.infoNotRegistered providerId consumerUid])) ∧
    (∀ range sfs, range ≠ "" →
      objGet reg.sharedFeatureServices providerId = some sfs →
      findSupportedVersion (objKeys sfs) range = none →
      bindFeatureService reg providerId consumerUid (some range) false =
        (.error (.featureServiceUnsupported providerId consumerUid range
          (objKeys sfs)), []) ∧
      bindFeatureService reg providerId consumerUid (some range) true =
        (.ok none, [.infoUnsupported providerId consumerUid range
          (objKeys sfs)])) ∧
    (∀ (dependencies : FeatureServiceConsumerDependencies)
        (requiredVersion : Option String) (rest : List (String × Option String))
        (ev : List Event),
      hasKey dependencies providerId = false →
      bindFeatureService reg providerId consumerUid requiredVersion true =
        (.ok none, ev) →
      bindDepsLoop reg consumerUid dependencies
          ((providerId, requiredVersion) :: rest) =
        ((bindDepsLoop reg consumerUid dependencies rest).1,
         ev ++ (bindDepsLoop reg consumerUid dependencies rest).2)) := by
  refine ⟨?_, ?_, ?_, ?_⟩
  · intro requiredVersion hfalsy
    constructor <;> · unfold bindFeatureService; rw [hfalsy]; simp
  · intro range hrange hnone
    have hfalsy : isFalsyRange (some range) = false := by
      simp [isFalsyRange, hrange]
    constructor <;>
      · unfold bindFeatureService
        rw [hfalsy]
        simp [hnone]
  · intro range sfs hrange hsome hnomatch
    have hfalsy : isFalsyRange (some range) = false := by
      simp [isFalsyRange, hrange]
    constructor <;>
      · unfold bindFeatureService
        rw [hfalsy]
        simp [hsome, hnomatch]
  · intro dependencies requiredVersion rest ev hdeps hskip
    simp only [bindDepsLoop, hdeps, Bool.not_false, hskip]

def wCdefBoth : FeatureServiceConsumerDefinition :=
  { id := "c"
    dependencies := [("a", some "^1.0")]
    optionalDependencies := [("a", some "^2.0")] }

/-- Witness for C7: with capability `a` declared required at `^1.0` and
optional at `^2.0`, the merged map carries `^1.0`, the optional flag is
`false`, and required resolution never skips. -/
theorem C7_witness :
    objGet (spreadMerge wCdefBoth.optionalDependencies wCdefBoth.dependencies)
        "a" = some (some "^1.0") ∧
    (!hasKey wCdefBoth.dependencies "a") = false ∧
    (bindFeatureService (α := Nat) (β := Nat) wRegA "a" "c"
      (some "^9.9") false).1 ≠ Except.ok none := by
  have h := C7_required_wins_on_collision wRegA wCdefBoth "a" (by decide)
    (by decide)
  exact ⟨h.1.trans rfl, h.2.1, h.2.2 "c" (some "^9.9")⟩

def wBindingT1 : FeatureServiceBinding Nat := ⟨1, some ⟨["e1"], some "boom"⟩⟩

def wBindingT2 : FeatureServiceBinding Nat := ⟨2, some ⟨["e2"], none⟩⟩

/-- Witness for C8: with two recorded bindings whose first teardown throws,
the first call of `unbind` still runs the second teardown (its side effect
`e2` appears after the logged failure of the first) and returns without
propagating. -/
theorem C8_witness :
    (unbind "c" [("p", wBindingT1), ("q", wBindingT2)] false wRegA).1 =
      Except.ok () ∧
    (unbind "c" [("p", wBindingT1), ("q", wBindingT2)] false wRegA).2.2.2 =
      [.teardownEffect "e1", .errorCouldNotUnbound "p" "c",
       .teardownEffect "e2", .infoUnbound "q" "c"] := by
  have h := C8_unbind_isolation (β := Nat) "c"
    [("p", wBindingT1), ("q", wBindingT2)] wRegA
  exact ⟨h.1, h.2 1 (by decide)⟩

/-- Witness for C9: unregistered required dependency throws, a missing range
on an optional dependency is skipped with a notice, an unsatisfiable range on
a required dependency throws listing all exposed versions, and the dependency
loop continues past an optional skip with the capability absent. -/
theorem C9_witness :
    bindFeatureService (α := Nat) (β := Nat) wRegA "missing" "c"
        (some "^1.0") false =
      (.error (.featureServiceNotRegistered "missing" "c"), []) ∧
    bindFeatureService (α := Nat) (β := Nat) wRegA "a" "c" none true =
      (.ok none, [.infoDependencyVersionInvalid "a" "c"]) ∧
    bindFeatureService (α := Nat) (β := Nat) wRegA "a" "c" (some "^3.0") false =
      (.error (.featureServiceUnsupported "a" "c" "^3.0"
        ["1.0.0", "2.0.0"]), []) ∧
    bindDepsLoop wRegA "c" [] [("a", none)] =
      (.ok ([], []), [.infoDependencyVersionInvalid "a" "c"]) := by
  refine ⟨?_, ?_, ?_, ?_⟩
  · exact ((C9_required_fatal_optional_skip wRegA "missing" "c").2.1 "^1.0"
      (by decide) rfl).1
  · exact ((C9_required_fatal_optional_skip wRegA "a" "c").1 none rfl).2
  · exact ((C9_required_fatal_optional_skip wRegA "a" "c").2.2.1 "^3.0" wSfsA
      (by decide) rfl (by decide)).1
  · exact (C9_required_fatal_optional_skip wRegA "a" "c").2.2.2 [] none []
      [.infoDependencyVersionInvalid "a" "c"] rfl rfl

/-! ## Claim C3 -/

/-- Filtering out an element that is not in the list is the identity. -/
theorem filter_ne_of_not_contains {l : List String} {x : String}
    (h : l.contains x = false) : l.filter (· ≠ x) = l := by
  have hx : x ∉ l := by simpa using h
  refine List.filter_eq_self.mpr ?_
  intro a ha
  simp only [decide_eq_true_eq]
  exact fun e => hx (e ▸ ha)

/-- Characterization of a successful `bindFeatureServices` call: the UID was
free, the returned UID is the derived one, and the only state change is the
activation of that UID. -/
theorem bindFeatureServices_ok {α β : Type}
    {reg : FeatureServiceRegistry α β} {cdef : FeatureServiceConsumerDefinition}
    {sp : Option String} {b : FeatureServicesBinding α}
    {reg' : FeatureServiceRegistry α β} {ev : List Event}
    (h : bindFeatureServices reg cdef sp = (.ok b, reg', ev)) :
    reg.consumerUids.contains (createUid cdef.id sp) = false ∧
    b.consumerUid = createUid cdef.id sp ∧
    reg' = { reg with consumerUids := setAdd reg.consumerUids (createUid cdef.id sp) } := by
  by_cases hc : reg.consumerUids.contains (createUid cdef.id sp) = true
  · simp only [bindFeatureServices, hc, if_true] at h
    simp at h
  · have hc' : reg.consumerUids.contains (createUid cdef.id sp) = false := by
      simpa using hc
    simp only [bindFeatureServices, hc', Bool.false_eq_true, if_false] at h
    split at h
    · simp at h
    · rename_i heq
      simp only [Prod.mk.injEq, Except.ok.injEq] at h
      obtain ⟨hb, hreg', hev⟩ := h
      exact ⟨hc', by rw [← hb], hreg'.symm⟩

/-- C3: a ConsumerUID is bound at most once concurrently — binding while the
UID is active throws, the second and every later call of the returned
`unbind` throws, and after a successful first `unbind` the very same UID can
be bound again with the same successful result. -/
theorem C3_consumer_uid_lifecycle {α β : Type}
    (reg : FeatureServiceRegistry α β) (cdef : FeatureServiceConsumerDefinition)
    (specifier : Option String) :
    (reg.consumerUids.contains (createUid cdef.id specifier) = true →
      bindFeatureServices reg cdef specifier =
        (.error (.featureServicesAlreadyBound (createUid cdef.id specifier)),
         reg, [])) ∧
    (∀ (consumerUid : String)
        (bindings : List (String × FeatureServiceBinding α))
        (reg₂ : FeatureServiceRegistry α β),
      unbind consumerUid bindings true reg₂ =
        (.error (.featureServicesAlreadyUnbound consumerUid), true, reg₂, [])) ∧
    (∀ (binding : FeatureServicesBinding α)
        (reg' : FeatureServiceRegistry α β) (ev : List Event),
      bindFeatureServices reg cdef specifier = (.ok binding, reg', ev) →
      ∃ (reg'' : FeatureServiceRegistry α β) (ev' : List Event),
        unbind binding.consumerUid binding.bindings false reg' =
          (.ok (), true, reg'', ev') ∧
        reg'' = reg ∧
        bindFeatureServices reg'' cdef specifier = (.ok binding, reg', ev)) := by
  refine ⟨?_, ?_, ?_⟩
  · intro hc
    simp only [bindFeatureServices, hc, if_true]
  · intro consumerUid bindings reg₂
    rfl
  · intro binding reg' ev hbind
    obtain ⟨hc, hcuid, hreg'⟩ := bindFeatureServices_ok hbind
    have hstate : ({ reg' with consumerUids := reg'.consumerUids.filter (· ≠ binding.consumerUid) } : FeatureServiceRegistry α β) = reg := by
      rw [hreg', hcuid]
      have hfil : (setAdd reg.consumerUids (createUid cdef.id specifier)).filter (· ≠ createUid cdef.id specifier) = reg.consumerUids := by
        unfold setAdd
        rw [if_neg (by rw [hc]; exact Bool.false_ne_true)]
        rw [List.filter_append, filter_ne_of_not_contains hc]
        simp
      simp only [hfil]
    refine ⟨reg,
      (binding.bindings.map (runTeardown binding.consumerUid)).flatten,
      ?_, rfl, hbind⟩
    have hrun : unbind binding.consumerUid binding.bindings false reg' =
        (.ok (), true,
         { reg' with consumerUids := reg'.consumerUids.filter (· ≠ binding.consumerUid) },
         (binding.bindings.map (runTeardown binding.consumerUid)).flatten) :=
      rfl
    rw [hrun, hstate]

def wCdefC : FeatureServiceConsumerDefinition := { id := "c" }

def wRegEmpty : FeatureServiceRegistry Nat Nat := ⟨none, [], []⟩

def wRegBound : FeatureServiceRegistry Nat Nat := ⟨none, [], ["c"]⟩

/-- Witness for C3: binding an active UID throws, a second `unbind` call
throws, and after a successful `unbind` the UID can be bound again. -/
theorem C3_witness :
    bindFeatureServices (α := Nat) (β := Nat) wRegBound wCdefC none =
      (.error (.featureServicesAlreadyBound "c"), wRegBound, []) ∧
    unbind (α := Nat) (β := Nat) "c" [] true wRegBound =
      (.error (.featureServicesAlreadyUnbound "c"), true, wRegBound, []) ∧
    (∃ (reg'' : FeatureServiceRegistry Nat Nat) (ev' : List Event),
      unbind "c" [] false wRegBound = (.ok (), true, reg'', ev') ∧
      reg'' = wRegEmpty ∧
      bindFeatureServices reg'' wCdefC none =
        (.ok ⟨"c", [], []⟩, wRegBound, [])) := by
  refine ⟨(C3_consumer_uid_lifecycle wRegBound wCdefC none).1 rfl,
    (C3_consumer_uid_lifecycle (α := Nat) (β := Nat) wRegEmpty wCdefC none).2.1
      "c" [] wRegBound, ?_⟩
  exact (C3_consumer_uid_lifecycle wRegEmpty wCdefC none).2.2 ⟨"c", [], []⟩
    wRegBound [] rfl

/-! ## Lemmas about the registration loop -/

/-- Event classification: the events a dependency-bind can emit. -/
def isBindEvent : Event → Bool
  | .infoBound _ _ => true
  | .infoDependencyVersionInvalid _ _ => true
  | .infoNotRegistered _ _ => true
  | .infoUnsupported _ _ _ _ => true
  | .binderInvoked _ _ _ => true
  | _ => false

/-- Event classification: the events of a teardown (the `unbind` loop). -/
def isTeardownEvent : Event → Bool
  | .infoUnbound _ _ => true
  | .errorCouldNotUnbound _ _ => true
  | .teardownEffect _ => true
  | _ => false

/-- Every event emitted by `bindFeatureService` is a bind event. -/
theorem bindFeatureService_events {α β : Type}
    (reg : FeatureServiceRegistry α β) (pid cuid : String)
    (rv : Option String) (opt : Bool) :
    ∀ e ∈ (bindFeatureService reg pid cuid rv opt).2, isBindEvent e = true := by
  unfold bindFeatureService
  split
  · split <;> intro e he <;> simp at he <;> simp [he, isBindEvent]
  · split
    · split <;> intro e he <;> simp at he <;> simp [he, isBindEvent]
    · dsimp only
      split
      · split <;> intro e he <;> simp at he <;> simp [he, isBindEvent]
      · split
        · split <;> intro e he <;> simp at he <;> simp [he, isBindEvent]
        · intro e he
          simp at he
          simp [he, isBindEvent]

/-- Every event emitted by the dependency loop is a bind event. -/
theorem bindDepsLoop_events {α β : Type}
    (reg : FeatureServiceRegistry α β) (cuid : String)
    (deps : FeatureServiceConsumerDependencies) :
    ∀ (l : List (String × Option String)),
      ∀ e ∈ (bindDepsLoop reg cuid deps l).2, isBindEvent e = true
  | [] => by intro e he; simp [bindDepsLoop] at he
  | (pid, rv) :: rest => by
    intro e he
    have ih := bindDepsLoop_events reg cuid deps rest
    have hsvc := bindFeatureService_events reg pid cuid rv (!hasKey deps pid)
    simp only [bindDepsLoop] at he
    split at he
    · rename_i e' ev' hstep
      exact hsvc e (by rw [hstep]; exact he)
    · rename_i ev' hstep
      simp only [List.mem_append] at he
      rcases he with he | he
      · exact hsvc e (by rw [hstep]; exact he)
      · exact ih e he
    · rename_i binding ev' hstep
      split at he <;>
      · rename_i hloop
        simp only [List.mem_append, List.mem_singleton] at he
        rcases he with (he | he) | he
        · exact hsvc e (by rw [hstep]; exact he)
        · simp [he, isBindEvent]
        · exact ih e (by rw [hloop]; exact he)

/-- Every event emitted by `bindFeatureServices` is a bind event. -/
theorem bindFeatureServices_events {α β : Type}
    (reg : FeatureServiceRegistry α β) (cdef : FeatureServiceConsumerDefinition)
    (sp : Option String) :
    ∀ e ∈ (bindFeatureServices reg cdef sp).2.2, isBindEvent e = true := by
  unfold bindFeatureServices
  dsimp only
  split
  · intro e he; simp at he
  · have hloop := bindDepsLoop_events reg (createUid cdef.id sp)
      cdef.dependencies
      (spreadMerge cdef.optionalDependencies cdef.dependencies)
    split
    · rename_i hl
      intro e he
      exact hloop e (by rw [hl]; exact he)
    · rename_i hl
      intro e he
      exact hloop e (by rw [hl]; exact he)

/-- The state returned by `bindFeatureServices` (also on a thrown error)
keeps the provider map and the configs, and only ever extends the active
UID set. -/
theorem bindFeatureServices_state {α β : Type}
    (reg : FeatureServiceRegistry α β) (cdef : FeatureServiceConsumerDefinition)
    (sp : Option String) :
    (bindFeatureServices reg cdef sp).2.1.sharedFeatureServices =
        reg.sharedFeatureServices ∧
    (bindFeatureServices reg cdef sp).2.1.configs = reg.configs ∧
    ∀ x ∈ reg.consumerUids,
      x ∈ (bindFeatureServices reg cdef sp).2.1.consumerUids := by
  unfold bindFeatureServices
  dsimp only
  split
  · exact ⟨rfl, rfl, fun x hx => hx⟩
  · split
    · exact ⟨rfl, rfl, fun x hx => hx⟩
    · refine ⟨rfl, rfl, fun x hx => ?_⟩
      unfold setAdd
      split
      · exact hx
      · exact List.mem_append_left _ hx

/-- One registration step preserves every committed provider entry. -/
theorem registerStep_shared_preserved {α β : Type}
    (reg : FeatureServiceRegistry α β)
    (byId : List (String × FeatureServiceProviderDefinition α β))
    (cid pid q : String) (s : SharedFeatureService α)
    (h : objGet reg.sharedFeatureServices q = some s) :
    objGet (registerStep reg byId cid pid).2.1.sharedFeatureServices q =
      some s := by
  unfold registerStep
  split
  · split <;> exact h
  · rename_i hhas
    split
    · exact h
    · rename_i pdef hdef
      have hb := bindFeatureServices_state reg pdef.toConsumerDefinition none
      split
      · rename_i e reg' ev hbind
        have hsh : reg'.sharedFeatureServices = reg.sharedFeatureServices := by
          rw [hbind] at hb
          exact hb.1
        rw [hsh]
        exact h
      · rename_i binding reg' ev hbind
        have hsh : reg'.sharedFeatureServices = reg.sharedFeatureServices := by
          rw [hbind] at hb
          exact hb.1
        dsimp only
        split
        · dsimp only
          have hfalse : hasKey reg'.sharedFeatureServices pid = false := by
            rw [hsh]
            simpa using hhas
          unfold mapSet
          rw [if_neg (by rw [hfalse]; exact Bool.false_ne_true)]
          exact objGet_append_left _ _ _ _ (hsh ▸ h)
        · rw [hsh]
          exact h

/-- The registration loop over a concatenation runs the left part first and,
when it does not throw, continues on the resulting state. -/
theorem registerLoop_append {α β : Type}
    (byId : List (String × FeatureServiceProviderDefinition α β))
    (cid : String) :
    ∀ (l₁ l₂ : List String) (reg : FeatureServiceRegistry α β),
      registerLoop byId cid reg (l₁ ++ l₂) =
        match registerLoop byId cid reg l₁ with
        | (.error e, reg', ev) => (.error e, reg', ev)
        | (.ok (), reg', ev) =>
          match registerLoop byId cid reg' l₂ with
          | (r, reg'', ev') => (r, reg'', ev ++ ev')
  | [], l₂, reg => by
    rcases hl : registerLoop byId cid reg l₂ with ⟨r, reg₂, ev₂⟩
    simp [registerLoop, hl]
  | p :: l₁, l₂, reg => by
    have ih := registerLoop_append byId cid l₁ l₂
    simp only [List.cons_append, registerLoop]
    rcases hs : registerStep reg byId cid p with ⟨r₁, reg₁, ev₁⟩
    try dsimp only
    cases r₁ with
    | error e => rfl
    | ok u =>
      cases u
      try dsimp only
      rw [show List.append l₁ l₂ = l₁ ++ l₂ from rfl, ih reg₁]
      rcases h₁ : registerLoop byId cid reg₁ l₁ with ⟨r₂, reg₂, ev₂⟩
      try dsimp only
      cases r₂ with
      | error e => rfl
      | ok u =>
        cases u
        try dsimp only
        rcases h₂ : registerLoop byId cid reg₂ l₂ with ⟨r₃, reg₃, ev₃⟩
        try dsimp only
        simp [List.append_assoc]

/-- The registration loop preserves every committed provider entry. -/
theorem registerLoop_shared_preserved {α β : Type}
    (byId : List (String × FeatureServiceProviderDefinition α β))
    (cid q : String) (s : SharedFeatureService α) :
    ∀ (l : List String) (reg : FeatureServiceRegistry α β),
      objGet reg.sharedFeatureServices q = some s →
      objGet (registerLoop byId cid reg l).2.1.sharedFeatureServices q =
        some s
  | [], reg, h => h
  | p :: l, reg, h => by
    have hstep := registerStep_shared_preserved reg byId cid p q s h
    simp only [registerLoop]
    rcases hs : registerStep reg byId cid p with ⟨r₁, reg₁, ev₁⟩
    rw [hs] at hstep
    try dsimp only
    cases r₁ with
    | error e => exact hstep
    | ok u =>
      cases u
      try dsimp only
      exact registerLoop_shared_preserved byId cid q s l reg₁ hstep

/-- One registration step only ever extends the active UID set. -/
theorem registerStep_uid_monotone {α β : Type}
    (reg : FeatureServiceRegistry α β)
    (byId : List (String × FeatureServiceProviderDefinition α β))
    (cid pid : String) (x : String) (hx : x ∈ reg.consumerUids) :
    x ∈ (registerStep reg byId cid pid).2.1.consumerUids := by
  unfold registerStep
  split
  · split <;> exact hx
  · split
    · exact hx
    · rename_i pdef hdef
      have hb := bindFeatureServices_state reg pdef.toConsumerDefinition none
      split
      · rename_i e reg' ev hbind
        rw [hbind] at hb
        exact hb.2.2 x hx
      · rename_i binding reg' ev hbind
        rw [hbind] at hb
        try dsimp only
        split
        · exact hb.2.2 x hx
        · exact hb.2.2 x hx

/-- The registration loop only ever extends the active UID set. -/
theorem registerLoop_uid_monotone {α β : Type}
    (byId : List (String × FeatureServiceProviderDefinition α β))
    (cid : String) (x : String) :
    ∀ (l : List String) (reg : FeatureServiceRegistry α β),
      x ∈ reg.consumerUids →
      x ∈ (registerLoop byId cid reg l).2.1.consumerUids
  | [], reg, hx => hx
  | p :: l, reg, hx => by
    have hstep := registerStep_uid_monotone reg byId cid p x hx
    simp only [registerLoop]
    rcases hs : registerStep reg byId cid p with ⟨r₁, reg₁, ev₁⟩
    rw [hs] at hstep
    try dsimp only
    cases r₁ with
    | error e => exact hstep
    | ok u =>
      cases u
      try dsimp only
      exact registerLoop_uid_monotone byId cid x l reg₁ hstep

/-- A `createInvoked` event of one registration step names that step's
provider. -/
theorem registerStep_createInvoked {α β : Type}
    (reg : FeatureServiceRegistry α β)
    (byId : List (String × FeatureServiceProviderDefinition α β))
    (cid pid q : String)
    (h : Event.createInvoked q ∈ (registerStep reg byId cid pid).2.2) :
    q = pid := by
  unfold registerStep at h
  split at h
  · split at h <;> simp at h
  · split at h
    · simp at h
    · rename_i pdef hdef
      have hb := bindFeatureServices_events reg pdef.toConsumerDefinition none
      split at h
      · rename_i e reg' ev hbind
        rw [hbind] at hb
        have := hb _ h
        simp [isBindEvent] at this
      · rename_i binding reg' ev hbind
        rw [hbind] at hb
        try dsimp only at h
        split at h
        · simp only [List.mem_append, List.mem_singleton] at h
          rcases h with (h | h) | h
          · have := hb _ h
            simp [isBindEvent] at this
          · cases h
            rfl
          · simp at h
        · simp only [List.mem_append, List.mem_singleton] at h
          rcases h with h | h
          · have := hb _ h
            simp [isBindEvent] at this
          · cases h
            rfl

/-- A `createInvoked` event of the registration loop names a provider of the
processed order. -/
theorem registerLoop_createInvoked {α β : Type}
    (byId : List (String × FeatureServiceProviderDefinition α β))
    (cid q : String) :
    ∀ (l : List String) (reg : FeatureServiceRegistry α β),
      Event.createInvoked q ∈ (registerLoop byId cid reg l).2.2 → q ∈ l
  | [], reg, h => by simp [registerLoop] at h
  | p :: l, reg, h => by
    simp only [registerLoop] at h
    rcases hs : registerStep reg byId cid p with ⟨r₁, reg₁, ev₁⟩
    rw [hs] at h
    try dsimp only at h
    cases r₁ with
    | error e =>
      have := registerStep_createInvoked reg byId cid p q (by rw [hs]; exact h)
      simp [this]
    | ok u =>
      cases u
      try dsimp only at h
      simp only [List.mem_append] at h
      rcases h with h | h
      · have := registerStep_createInvoked reg byId cid p q (by rw [hs]; exact h)
        simp [this]
      · have := registerLoop_createInvoked byId cid q l reg₁ h
        simp [this]

/-! ## Claim C2 -/

/-- C2: `registerFeatureServices` commits a provider's SharedService only
after validating that every exposed version key is semver-coercible.  When a
key fails coercion, the call throws an error naming the provider and the
registering consumer, that provider's SharedService is not stored, and the
providers already committed earlier in the resolved order of the same batch
stay committed (no rollback). -/
theorem C2_register_validates_before_commit {α β : Type}
    (reg : FeatureServiceRegistry α β)
    (defs : List (FeatureServiceProviderDefinition α β)) (consumerId : String)
    (pre post : List String) (p : String)
    (pdef : FeatureServiceProviderDefinition α β)
    (reg₁ reg₂ : FeatureServiceRegistry α β) (ev₁ ev₂ : List Event)
    (binding : FeatureServicesBinding α)
    (horder : toposortDependencies (createDependencyGraph defs) =
      .ok (pre ++ p :: post))
    (hpre : registerLoop (createProviderDefinitionById defs) consumerId reg
      pre = (.ok (), reg₁, ev₁))
    (hnew : hasKey reg₁.sharedFeatureServices p = false)
    (hdef : objGet (createProviderDefinitionById defs) p = some pdef)
    (hbind : bindFeatureServices reg₁ pdef.toConsumerDefinition none =
      (.ok binding, reg₂, ev₂))
    (hbad : ((objKeys (pdef.create
        (reg₁.configs.bind fun cfgs => objGet cfgs p)
        binding.featureServices)).all
          fun version => (coerce version).isSome) = false) :
    registerFeatureServices reg defs consumerId =
      (.error (.featureServiceVersionInvalid p consumerId), reg₂,
       ev₁ ++ (ev₂ ++ [.createInvoked p])) ∧
    reg₂.sharedFeatureServices = reg₁.sharedFeatureServices ∧
    objGet reg₂.sharedFeatureServices p = none ∧
    ∀ q s, objGet reg₁.sharedFeatureServices q = some s →
      objGet reg₂.sharedFeatureServices q = some s := by
  have hshared : reg₂.sharedFeatureServices = reg₁.sharedFeatureServices := by
    have hb := bindFeatureServices_state reg₁ pdef.toConsumerDefinition none
    rw [hbind] at hb
    exact hb.1
  have hstep : registerStep reg₁ (createProviderDefinitionById defs)
      consumerId p =
      (.error (.featureServiceVersionInvalid p consumerId), reg₂,
       ev₂ ++ [.createInvoked p]) := by
    unfold registerStep
    rw [if_neg (by rw [hnew]; exact Bool.false_ne_true), hdef]
    try dsimp only
    rw [hbind]
    try dsimp only
    rw [if_neg (by rw [hbad]; exact Bool.false_ne_true)]
  have hloop2 : registerLoop (createProviderDefinitionById defs) consumerId
      reg₁ (p :: post) =
      (.error (.featureServiceVersionInvalid p consumerId), reg₂,
       ev₂ ++ [.createInvoked p]) := by
    simp only [registerLoop, hstep]
  have hfull : registerFeatureServices reg defs consumerId =
      (.error (.featureServiceVersionInvalid p consumerId), reg₂,
       ev₁ ++ (ev₂ ++ [.createInvoked p])) := by
    unfold registerFeatureServices
    rw [horder]
    try dsimp only
    rw [registerLoop_append, hpre]
    try dsimp only
    rw [hloop2]
  refine ⟨hfull, hshared, ?_, fun q s h => by rw [hshared]; exact h⟩
  rw [hshared]
  exact objGet_eq_none_of_not_hasKey hnew

def wProvA2 : FeatureServiceProviderDefinition Nat Nat :=
  { id := "a", create := fun _ _ => [("9.0.0", wBinder2)] }

def wProvGood : FeatureServiceProviderDefinition Nat Nat :=
  { id := "good", create := fun _ _ => [("1.0.0", wBinder1)] }

def wProvBad : FeatureServiceProviderDefinition Nat Nat :=
  { id := "bad", create := fun _ _ => [("nope", wBinder1)] }

def wReg1 : FeatureServiceRegistry Nat Nat :=
  ⟨none, [("good", [("1.0.0", wBinder1)])], ["good"]⟩

def wReg2 : FeatureServiceRegistry Nat Nat :=
  ⟨none, [("good", [("1.0.0", wBinder1)])], ["good", "bad"]⟩

/-- Witness for C2: in a batch where `good` exposes `1.0.0` and `bad` exposes
the non-coercible key `nope`, registration throws naming `bad` and the
registering consumer, does not store `bad`, and keeps `good` committed. -/
theorem C2_witness :
    registerFeatureServices wRegEmpty [wProvGood, wProvBad] "int" =
      (.error (.featureServiceVersionInvalid "bad" "int"), wReg2,
       [.createInvoked "good", .infoRegistered "good" "int"] ++
         ([] ++ [.createInvoked "bad"])) ∧
    wReg2.sharedFeatureServices = wReg1.sharedFeatureServices ∧
    objGet wReg2.sharedFeatureServices "bad" = none ∧
    objGet wReg2.sharedFeatureServices "good" =
      some [("1.0.0", wBinder1)] := by
  have h := C2_register_validates_before_commit wRegEmpty [wProvGood, wProvBad]
    "int" ["good"] [] "bad" wProvBad wReg1 wReg2
    [.createInvoked "good", .infoRegistered "good" "int"] []
    ⟨"bad", [], []⟩ rfl rfl rfl rfl rfl (by decide)
  exact ⟨h.1, h.2.1, h.2.2.1, h.2.2.2 "good" [("1.0.0", wBinder1)] rfl⟩

/-! ## Claim C4 -/

/-- C4: a providerId is registered at most once for the registry's lifetime.
When a batch redeclares an already-registered id, the stored SharedService of
the first registration is retained, a warning naming the provider and the
registering consumer is emitted, the redeclared provider's `create` is never
invoked, and the registration loop continues with the remaining providers. -/
theorem C4_provider_registered_once {α β : Type}
    (reg : FeatureServiceRegistry α β)
    (defs : List (FeatureServiceProviderDefinition α β))
    (consumerId pid : String) (s : SharedFeatureService α)
    (pre post : List String) (reg₁ : FeatureServiceRegistry α β)
    (ev₁ : List Event)
    (hreg : objGet reg.sharedFeatureServices pid = some s)
    (hbatch : hasKey (createProviderDefinitionById defs) pid = true)
    (horder : toposortDependencies (createDependencyGraph defs) =
      .ok (pre ++ pid :: post))
    (hpre : registerLoop (createProviderDefinitionById defs) consumerId reg
      pre = (.ok (), reg₁, ev₁))
    (hpre' : pid ∉ pre) (hpost : pid ∉ post) :
    objGet
      (registerFeatureServices reg defs consumerId).2.1.sharedFeatureServices
      pid = some s ∧
    Event.warnAlreadyRegistered pid consumerId ∈
      (registerFeatureServices reg defs consumerId).2.2 ∧
    Event.createInvoked pid ∉
      (registerFeatureServices reg defs consumerId).2.2 ∧
    registerFeatureServices reg defs consumerId =
      ((registerLoop (createProviderDefinitionById defs) consumerId reg₁
          post).1,
       (registerLoop (createProviderDefinitionById defs) consumerId reg₁
          post).2.1,
       ev₁ ++ ([.warnAlreadyRegistered pid consumerId] ++
         (registerLoop (createProviderDefinitionById defs) consumerId reg₁
            post).2.2)) := by
  have h1 : objGet reg₁.sharedFeatureServices pid = some s := by
    have h := registerLoop_shared_preserved (createProviderDefinitionById defs)
      consumerId pid s pre reg hreg
    rw [hpre] at h
    exact h
  have hhk : hasKey reg₁.sharedFeatureServices pid = true :=
    hasKey_of_objGet_some h1
  have hstep : registerStep reg₁ (createProviderDefinitionById defs)
      consumerId pid =
      (.ok (), reg₁, [.warnAlreadyRegistered pid consumerId]) := by
    unfold registerStep
    rw [if_pos hhk, if_pos hbatch]
  rcases hrest : registerLoop (createProviderDefinitionById defs) consumerId
    reg₁ post with ⟨r₂, reg₂, ev₂⟩
  have hloop2 : registerLoop (createProviderDefinitionById defs) consumerId
      reg₁ (pid :: post) =
      (r₂, reg₂, [.warnAlreadyRegistered pid consumerId] ++ ev₂) := by
    simp only [registerLoop, hstep]
    try dsimp only
    rw [hrest]
  have hfull : registerFeatureServices reg defs consumerId =
      (r₂, reg₂, ev₁ ++ ([.warnAlreadyRegistered pid consumerId] ++ ev₂)) := by
    unfold registerFeatureServices
    rw [horder]
    try dsimp only
    rw [registerLoop_append, hpre]
    try dsimp only
    rw [hloop2]
  rw [hfull]
  refine ⟨?_, by simp, ?_, rfl⟩
  · have h := registerLoop_shared_preserved (createProviderDefinitionById defs)
      consumerId pid s post reg₁ h1
    rw [hrest] at h
    exact h
  · intro hmem
    simp only [List.mem_append, List.mem_singleton] at hmem
    rcases hmem with h | h | h
    · exact hpre' (registerLoop_createInvoked (createProviderDefinitionById
        defs) consumerId pid pre reg (by rw [hpre]; exact h))
    · simp at h
    · exact hpost (registerLoop_createInvoked (createProviderDefinitionById
        defs) consumerId pid post reg₁ (by rw [hrest]; exact h))

def wFinA2 : FeatureServiceRegistry Nat Nat :=
  ⟨none, [("a", wSfsA), ("good", [("1.0.0", wBinder1)])], ["good"]⟩

/-- Witness for C4: a batch that redeclares the already-registered provider
`a` and also brings the new provider `good` keeps the first stored
SharedService of `a`, warns, never invokes the redeclared `create`, and the
loop continues: `good` (the remaining provider after the duplicate) is
registered and the call succeeds. -/
theorem C4_witness :
    objGet (registerFeatureServices wRegA [wProvA2, wProvGood]
      "int").2.1.sharedFeatureServices "a" = some wSfsA ∧
    Event.warnAlreadyRegistered "a" "int" ∈
      (registerFeatureServices wRegA [wProvA2, wProvGood] "int").2.2 ∧
    Event.createInvoked "a" ∉
      (registerFeatureServices wRegA [wProvA2, wProvGood] "int").2.2 ∧
    registerFeatureServices wRegA [wProvA2, wProvGood] "int" =
      (.ok (), wFinA2,
       [.warnAlreadyRegistered "a" "int", .createInvoked "good",
        .infoRegistered "good" "int"]) := by
  have h := C4_provider_registered_once wRegA [wProvA2, wProvGood] "int" "a"
    wSfsA [] ["good"] wRegA [] rfl rfl rfl rfl (by simp) (by decide)
  exact ⟨h.1, h.2.1, h.2.2.1, h.2.2.2⟩

/-! ## Claim C10 -/

/-- Values of the definitions-by-id map carry their key as id. -/
theorem createProviderDefinitionById_id {α β : Type}
    (defs : List (FeatureServiceProviderDefinition α β)) (k : String) :
    ∀ d, objGet (createProviderDefinitionById defs) k = some d → d.id = k := by
  suffices h : ∀ (init : List (String × FeatureServiceProviderDefinition α β)),
      (∀ d, objGet init k = some d → d.id = k) →
      ∀ d, objGet (defs.foldl (fun m d => mapSet m d.id d) init) k = some d →
        d.id = k by
    refine h [] ?_
    intro d hd
    simp [objGet] at hd
  induction defs with
  | nil => exact fun init hinit => hinit
  | cons x xs ih =>
    intro init hinit
    refine ih (mapSet init x.id x) ?_
    intro d' hd'
    rw [objGet_mapSet] at hd'
    split at hd'
    · rename_i hk
      cases hd'
      exact hk.symm
    · exact hinit d' hd'

/-- An element is a member of the set it was added to. -/
theorem mem_setAdd_self (l : List String) (x : String) : x ∈ setAdd l x := by
  unfold setAdd
  split
  · rename_i hc
    simpa using hc
  · exact List.mem_append_right _ (List.mem_singleton.mpr rfl)

/-- Bind events are not teardown events. -/
theorem isBindEvent_not_teardown (e : Event) (h : isBindEvent e = true) :
    isTeardownEvent e = false := by
  cases e <;> simp [isBindEvent, isTeardownEvent] at h ⊢

/-- A thrown `bindFeatureServices` leaves the registry state unchanged. -/
theorem bindFeatureServices_error_state {α β : Type}
    {reg : FeatureServiceRegistry α β} {cdef : FeatureServiceConsumerDefinition}
    {sp : Option String} {e : RegistryError}
    {st : FeatureServiceRegistry α β} {ev : List Event}
    (h : bindFeatureServices reg cdef sp = (.error e, st, ev)) : st = reg := by
  unfold bindFeatureServices at h
  dsimp only at h
  split at h
  · simp only [Prod.mk.injEq] at h
    exact h.2.1.symm
  · split at h
    · simp only [Prod.mk.injEq] at h
      exact h.2.1.symm
    · simp at h

/-- If one registration step newly commits `pid`, the step was `pid`'s own
and it bound `pid` as a consumer: `pid` is active afterwards. -/
theorem registerStep_commit_uid {α β : Type}
    (reg : FeatureServiceRegistry α β)
    (byId : List (String × FeatureServiceProviderDefinition α β))
    (cid q pid : String)
    (hIds : ∀ d, objGet byId pid = some d → d.id = pid)
    (hnone : objGet reg.sharedFeatureServices pid = none)
    (hchanged :
      objGet (registerStep reg byId cid q).2.1.sharedFeatureServices pid ≠
        none) :
    pid ∈ (registerStep reg byId cid q).2.1.consumerUids := by
  by_cases h1 : hasKey reg.sharedFeatureServices q = true
  · have hst : (registerStep reg byId cid q).2.1 = reg := by
      unfold registerStep
      rw [if_pos h1]
      split <;> rfl
    rw [hst] at hchanged
    exact absurd hnone hchanged
  · cases hdef : objGet byId q with
    | none =>
      have hst : (registerStep reg byId cid q).2.1 = reg := by
        unfold registerStep
        rw [if_neg h1, hdef]
      rw [hst] at hchanged
      exact absurd hnone hchanged
    | some pdef =>
      rcases hbind : bindFeatureServices reg pdef.toConsumerDefinition none
        with ⟨rb, reg', ev⟩
      cases rb with
      | error e =>
        have hst : (registerStep reg byId cid q).2.1 = reg' := by
          unfold registerStep
          rw [if_neg h1, hdef]
          try dsimp only
          rw [hbind]
        rw [hst, bindFeatureServices_error_state hbind] at hchanged
        exact absurd hnone hchanged
      | ok binding =>
        obtain ⟨hc, hcuid, hreg'⟩ := bindFeatureServices_ok hbind
        have hsh : reg'.sharedFeatureServices = reg.sharedFeatureServices := by
          rw [hreg']
        by_cases hval : ((objKeys (pdef.create
            (reg.configs.bind fun cfgs => objGet cfgs q)
            binding.featureServices)).all
              fun version => (coerce version).isSome) = true
        · have hst : (registerStep reg byId cid q).2.1 =
              { reg' with sharedFeatureServices := mapSet reg'.sharedFeatureServices q (pdef.create (reg.configs.bind fun cfgs => objGet cfgs q) binding.featureServices) } := by
            unfold registerStep
            rw [if_neg h1, hdef]
            try dsimp only
            rw [hbind]
            try dsimp only
            rw [if_pos hval]
          rw [hst] at hchanged ⊢
          dsimp only at hchanged ⊢
          rw [objGet_mapSet, hsh] at hchanged
          have hq : pid = q := by
            by_cases hpq : pid = q
            · exact hpq
            · rw [if_neg hpq] at hchanged
              exact absurd hnone hchanged
          have hid : pdef.id = pid := hIds pdef (hq ▸ hdef)
          rw [hreg']
          have hcu : createUid pdef.toConsumerDefinition.id none = pid := hid
          dsimp only
          rw [hcu]
          exact mem_setAdd_self _ _
        · have hst : (registerStep reg byId cid q).2.1 = reg' := by
            unfold registerStep
            rw [if_neg h1, hdef]
            try dsimp only
            rw [hbind]
            try dsimp only
            rw [if_neg hval]
          rw [hst, hsh] at hchanged
          exact absurd hnone hchanged

/-- If the registration loop newly commits `pid`, `pid` is an active
ConsumerUID of the final state. -/
theorem registerLoop_commit_uid {α β : Type}
    (byId : List (String × FeatureServiceProviderDefinition α β))
    (cid pid : String)
    (hIds : ∀ d, objGet byId pid = some d → d.id = pid) :
    ∀ (l : List String) (reg : FeatureServiceRegistry α β),
      objGet reg.sharedFeatureServices pid = none →
      objGet (registerLoop byId cid reg l).2.1.sharedFeatureServices pid ≠
        none →
      pid ∈ (registerLoop byId cid reg l).2.1.consumerUids
  | [], reg, hnone, hch => absurd hnone hch
  | q :: l, reg, hnone, hch => by
    simp only [registerLoop] at hch ⊢
    rcases hs : registerStep reg byId cid q with ⟨r₁, reg₁, ev₁⟩
    rw [hs] at hch
    try dsimp only at hch ⊢
    cases r₁ with
    | error e =>
      have := registerStep_commit_uid reg byId cid q pid hIds hnone
        (by rw [hs]; exact hch)
      rw [hs] at this
      exact this
    | ok u =>
      cases u
      try dsimp only at hch ⊢
      by_cases h₁ : objGet reg₁.sharedFeatureServices pid = none
      · exact registerLoop_commit_uid byId cid pid hIds l reg₁ h₁ hch
      · have hmem : pid ∈ reg₁.consumerUids := by
          have := registerStep_commit_uid reg byId cid q pid hIds hnone
            (by rw [hs]; exact h₁)
          rw [hs] at this
          exact this
        exact registerLoop_uid_monotone byId cid pid l reg₁ hmem

/-- C10: registering a provider binds it as a consumer with its own id and no
specifier, and that ConsumerUID is never released — after `pid` is newly
committed by `registerFeatureServices`, `pid` is an active UID and any later
`bindFeatureServices` with consumer id `pid` and no specifier throws the
duplicate-bind error.  Conversely, when `bindFeatureServices` itself throws,
the registry state (including the active set) is unchanged and no teardown of
the bindings already obtained in that failed call is ever invoked. -/
theorem C10_register_binds_provider_uid {α β : Type}
    (reg fin : FeatureServiceRegistry α β)
    (defs : List (FeatureServiceProviderDefinition α β))
    (cid pid : String) (r : Except RegistryError Unit) (ev : List Event)
    (s : SharedFeatureService α) :
    (registerFeatureServices reg defs cid = (r, fin, ev) →
      objGet reg.sharedFeatureServices pid = none →
      objGet fin.sharedFeatureServices pid = some s →
      pid ∈ fin.consumerUids ∧
      ∀ cdef : FeatureServiceConsumerDefinition, cdef.id = pid →
        bindFeatureServices (α := α) (β := β) fin cdef none =
          (.error (.featureServicesAlreadyBound pid), fin, [])) ∧
    (∀ (cdef : FeatureServiceConsumerDefinition) (sp : Option String)
        (e : RegistryError) (st : FeatureServiceRegistry α β)
        (ev' : List Event),
      bindFeatureServices reg cdef sp = (.error e, st, ev') →
      st = reg ∧ ∀ x ∈ ev', isTeardownEvent x = false) := by
  constructor
  · intro hrun hnone hsome
    have hmem : pid ∈ fin.consumerUids := by
      unfold registerFeatureServices at hrun
      split at hrun
      · simp only [Prod.mk.injEq] at hrun
        rw [← hrun.2.1] at hsome
        rw [hnone] at hsome
        simp at hsome
      · rename_i order horder
        have := registerLoop_commit_uid (createProviderDefinitionById defs)
          cid pid (createProviderDefinitionById_id defs pid) order reg hnone
          (by rw [hrun]; simp [hsome])
        rw [hrun] at this
        exact this
    refine ⟨hmem, ?_⟩
    intro cdef hid
    have hc : fin.consumerUids.contains (createUid cdef.id none) = true := by
      rw [show createUid cdef.id none = cdef.id from rfl, hid]
      exact List.elem_iff.mpr hmem
    simp only [bindFeatureServices, hc, if_true]
    rw [show createUid cdef.id none = cdef.id from rfl, hid]
  · intro cdef sp e st ev' hbind
    refine ⟨bindFeatureServices_error_state hbind, ?_⟩
    intro x hx
    have hev := bindFeatureServices_events reg cdef sp
    rw [hbind] at hev
    exact isBindEvent_not_teardown x (hev x hx)

def wFinGood : FeatureServiceRegistry Nat Nat :=
  ⟨none, [("good", [("1.0.0", wBinder1)])], ["good"]⟩

def wCdefGood : FeatureServiceConsumerDefinition := { id := "good" }

def wCdefMissing : FeatureServiceConsumerDefinition :=
  { id := "c", dependencies := [("missing", some "^1.0")] }

/-- Witness for C10: after registering provider `good`, its UID is active and
binding consumer id `good` with no specifier throws the duplicate-bind error;
and a bind that throws on a required dependency leaves the registry state
unchanged. -/
theorem C10_witness :
    "good" ∈ wFinGood.consumerUids ∧
    bindFeatureServices (α := Nat) (β := Nat) wFinGood wCdefGood none =
      (.error (.featureServicesAlreadyBound "good"), wFinGood, []) ∧
    wRegEmpty = wRegEmpty := by
  have ha := (C10_register_binds_provider_uid wRegEmpty wFinGood [wProvGood]
    "int" "good" (.ok ())
    [.createInvoked "good", .infoRegistered "good" "int"]
    [("1.0.0", wBinder1)]).1 rfl rfl rfl
  have hb := (C10_register_binds_provider_uid wRegEmpty wFinGood [wProvGood]
    "int" "good" (.ok ())
    [.createInvoked "good", .infoRegistered "good" "int"]
    [("1.0.0", wBinder1)]).2 wCdefMissing none
    (.featureServiceNotRegistered "missing" "c") wRegEmpty [] rfl
  exact ⟨ha.1, ha.2 wCdefGood rfl, hb.1⟩

/-! ## Claims C5 and C6 (Render Orchestrator) -/

namespace AsyncSsrManager

/-- A list of promises that all settled successfully has no rejection. -/
theorem firstRejection_eq_none_of_resolved (ps : List SettleState)
    (h : ∀ p ∈ ps, p = SettleState.resolved) : firstRejection ps = none := by
  unfold firstRejection
  rw [List.findSome?_eq_none_iff]
  intro p hp
  rw [h p hp]

/-- A list of promises that all settled successfully has no pending
promise. -/
theorem hasPending_eq_false_of_resolved (ps : List SettleState)
    (h : ∀ p ∈ ps, p = SettleState.resolved) : hasPending ps = false := by
  unfold hasPending
  rw [List.any_eq_false]
  intro p hp
  rw [h p hp]
  simp

/-- One-step unfolding of the fuelled render loop. -/
theorem renderLoop_succ (timeout : Option Nat) (renderFn : RenderFn)
    (fuel invocations : Nat) :
    renderLoop timeout renderFn (fuel + 1) invocations =
      match renderFn invocations with
      | .error e => .failed e (invocations + 1)
      | .ok pass =>
        if pass.rerenders.isEmpty then .completed pass.output (invocations + 1)
        else
          match firstRejection pass.rerenders with
          | some e => .failed e (invocations + 1)
          | none =>
            if hasPending pass.rerenders then
              match timeout with
              | some t => .timedOut t (invocations + 1)
              | none => .unbounded (invocations + 1)
            else renderLoop timeout renderFn fuel (invocations + 1) := rfl

/-- C5: `renderUntilCompleted` with a render function that never requests a
rerender resolves after exactly one invocation with that function's return
value; with a first pass whose rerender requests (one or several — the union
of every participant's requests) are all already settled and a second pass
with none, it resolves after exactly two invocations. -/
theorem C5_render_fixed_point (timeout : Option Nat) (renderFn : RenderFn)
    (fuel : Nat) :
    (∀ out, renderFn 0 = .ok ⟨out, []⟩ →
      renderUntilCompleted timeout renderFn (fuel + 1) = .completed out 1) ∧
    (∀ out₀ out₁ ps, renderFn 0 = .ok ⟨out₀, ps⟩ → ps ≠ [] →
      (∀ p ∈ ps, p = SettleState.resolved) → renderFn 1 = .ok ⟨out₁, []⟩ →
      renderUntilCompleted timeout renderFn (fuel + 2) =
        .completed out₁ 2) := by
  constructor
  · intro out h0
    unfold renderUntilCompleted
    rw [renderLoop_succ, h0]
    simp
  · intro out₀ out₁ ps h0 hne hres h1
    unfold renderUntilCompleted
    rw [renderLoop_succ, h0]
    dsimp only
    rw [if_neg (by simpa using hne)]
    rw [firstRejection_eq_none_of_resolved ps hres]
    dsimp only
    rw [hasPending_eq_false_of_resolved ps hres]
    simp only [Bool.false_eq_true, if_false]
    rw [renderLoop_succ, h1]
    simp

/-- C6: a single configured timeout governs the whole render operation — when
the first pass contributes a promise that never settles (and none that
rejects), the operation rejects with the timeout-specific outcome and the
render function was invoked exactly once. -/
theorem C6_render_timeout (t : Nat) (renderFn : RenderFn) (fuel : Nat)
    (out : String) (ps : List SettleState)
    (h0 : renderFn 0 = .ok ⟨out, ps⟩)
    (hpending : SettleState.pending ∈ ps)
    (hnorej : firstRejection ps = none) :
    renderUntilCompleted (some t) renderFn (fuel + 1) = .timedOut t 1 := by
  unfold renderUntilCompleted
  rw [renderLoop_succ, h0]
  dsimp only
  rw [if_neg (by simp; exact List.ne_nil_of_mem hpending)]
  rw [hnorej]
  dsimp only
  rw [if_pos (by unfold hasPending; rw [List.any_eq_true]; exact ⟨_, hpending, rfl⟩)]

/-- Witness for C5: a render function that requests two already-settled
rerenders in its first pass only completes with the second pass's output
after exactly two invocations; one with no requests completes in one. -/
theorem C5_witness :
    renderUntilCompleted (some 5)
      (fun _ => .ok ⟨"testHtml", []⟩) 3 = .completed "testHtml" 1 ∧
    renderUntilCompleted (some 5)
      (fun k => if k = 0 then
        .ok ⟨"testHtml", [SettleState.resolved, SettleState.resolved]⟩
       else .ok ⟨"testHtml", []⟩) 4 = .completed "testHtml" 2 := by
  constructor
  · exact (C5_render_fixed_point (some 5) (fun _ => .ok ⟨"testHtml", []⟩)
      2).1 "testHtml" rfl
  · exact (C5_render_fixed_point (some 5)
      (fun k => if k = 0 then
        .ok ⟨"testHtml", [SettleState.resolved, SettleState.resolved]⟩
       else .ok ⟨"testHtml", []⟩) 2).2 "testHtml" "testHtml"
      [SettleState.resolved, SettleState.resolved] rfl (by simp)
      (by decide) rfl

/-- Witness for C6: with timeout `5` and a first pass contributing a promise
that never settles, the operation times out after one invocation. -/
theorem C6_witness :
    renderUntilCompleted (some 5)
      (fun _ => .ok ⟨"testHtml", [SettleState.pending]⟩) 3 = .timedOut 5 1 := by
  exact C6_render_timeout 5 (fun _ => .ok ⟨"testHtml", [SettleState.pending]⟩)
    2 "testHtml" [SettleState.pending] rfl (by simp) rfl

end AsyncSsrManager

end FeatureHub
